import Mathlib

/-!
Verification of the capture orchestration pipeline of `html-sketchapp-cli`
(`src/bin/cli.js`).  The default command handler is embedded shallowly:
pure computations (viewport-spec parsing, URL resolution, output paths) are
Lean functions translated from the JavaScript expressions; the async
orchestration (server start, browser launch, navigation, injection, the
per-viewport capture loop, output writes, and the nested try/finally
teardown) is an interpreter that, given a run configuration and an
environment describing which external operations fail, produces the trace
of completed operations, the final set of written files, and the exit code.
-/

namespace HtmlSketchappCli

/-- A JavaScript number as far as this program observes it: either NaN
(produced by `parseInt`/`parseFloat` on non-numeric input) or a rational
value. -/
inductive JSNumber
  | nan
  | val (q : ℚ)
deriving DecidableEq, Repr

/-- Models JavaScript `String.prototype.split` with a single-character
separator: `"".split(s)` is `[""]`, a trailing separator yields a trailing
empty component. -/
def splitOnChar (sep : Char) : List Char → List (List Char)
  | [] => [[]]
  | c :: cs =>
    let r := splitOnChar sep cs
    if c = sep then [] :: r
    else
      match r with
      | [] => [[c]]
      | h :: t => (c :: h) :: t

/-- Numeric value of a digit string, most significant digit first. -/
def natOfDigits : List Char → Nat
  | [] => 0
  | c :: cs => natOfDigits cs + c.toNat.sub 48 * 10 ^ cs.length

/-- Models JavaScript `parseInt(s, 10)` on the inputs this program feeds it
(no leading whitespace or sign): the longest digit prefix is the value, and
an empty digit prefix gives NaN. -/
def parseIntJS (s : List Char) : JSNumber :=
  let ds := s.takeWhile Char.isDigit
  if ds.isEmpty then .nan else .val (natOfDigits ds)

/-- Models JavaScript `parseFloat(s)` on the inputs this program feeds it:
a digit prefix, optionally followed by a dot and more digits; no digits at
all gives NaN (in particular `parseFloat("")` is NaN). -/
def parseFloatJS (s : List Char) : JSNumber :=
  let ip := s.takeWhile Char.isDigit
  let rest := s.drop ip.length
  match rest with
  | '.' :: r =>
    let fp := r.takeWhile Char.isDigit
    if ip.isEmpty && fp.isEmpty then .nan
    else .val ((natOfDigits ip : ℚ) + (natOfDigits fp : ℚ) / (10 : ℚ) ^ fp.length)
  | _ => if ip.isEmpty then .nan else .val (natOfDigits ip)

/-- The viewport record passed to `page.setViewport`.  `width` and `height`
are `none` when the JavaScript destructuring produced `undefined` (spec
string with no `x` separator); otherwise they carry the `parseInt` result,
which may be NaN. -/
structure Viewport where
  width : Option JSNumber
  height : Option JSNumber
  deviceScaleFactor : JSNumber
deriving DecidableEq, Repr

/-- Embedding of the viewport-spec parsing in the capture loop:
`const [size, scale] = viewport.split(<at>)`;
`const [width, height] = size.split(<x>).map(x => parseInt(x, 10))`;
`const deviceScaleFactor = typeof scale === undefined ? 1 : parseFloat(scale)`. -/
def parseViewport (v : List Char) : Viewport :=
  let parts := splitOnChar '@' v
  let size := parts.headD []
  let scale := parts[1]?
  let dims := (splitOnChar 'x' size).map parseIntJS
  { width := dims[0]?
    height := dims[1]?
    deviceScaleFactor :=
      match scale with
      | none => .val 1
      | some s => parseFloatJS s }

/-- JavaScript truthiness of an optional string option: absent and the
empty string are falsy. -/
def strTruthy : Option String → Bool
  | none => false
  | some s => !(s == "")

/-- Models node `path.join` for the two-segment calls in this program
(no dot-segment normalization, which the claims never exercise). -/
def pathJoin (a b : String) : String :=
  if a = "" then b
  else if b = "" then a
  else ⟨(a.data.reverse.dropWhile (· == '/')).reverse ++ '/' :: b.data.dropWhile (· == '/')⟩

/-- Models node `path.resolve(cwd, p)` for the calls in this program. -/
def pathResolve (cwd p : String) : String :=
  if p.data.head? = some '/' then p else pathJoin cwd p

/-- Models the `url-join` collaborator for the two-argument calls in this
program: collapse the slashes at the seam to a single one. -/
def urlJoin (base part : String) : String :=
  let b : String := ⟨(base.data.reverse.dropWhile (· == '/')).reverse⟩
  let p : String := ⟨part.data.dropWhile (· == '/')⟩
  if part = "" then base
  else if p = "" then b ++ "/"
  else b ++ "/" ++ p

/-- The resolved inputs of one invocation of the default command
(after yargs parsing and config merging). -/
structure RunConfig where
  serve : Option String
  url : Option String
  file : Option String
  outDir : String
  viewports : Option (List (String × String))
  debug : Bool
  puppeteerArgs : Option String
  puppeteerExecutablePath : Option String
  puppeteerUserDataDir : Option String
  puppeteerWaitUntil : String
deriving DecidableEq, Repr

/-- The options object passed to `puppeteer.launch`. -/
structure LaunchArgs where
  args : List String
  executablePath : Option String
  headless : Bool
  userDataDir : Option String
deriving DecidableEq, Repr

/-- Embedding of the `launchArgs` object construction:
`args: argv.puppeteerArgs ? argv.puppeteerArgs.split(" ") : []`,
`headless: !debug`, the executable path and user-data dir passed through. -/
def mkLaunchArgs (cfg : RunConfig) : LaunchArgs :=
  { args :=
      if strTruthy cfg.puppeteerArgs then
        (splitOnChar ' ' (cfg.puppeteerArgs.getD "").data).map List.asString
      else []
    executablePath := cfg.puppeteerExecutablePath
    headless := !cfg.debug
    userDataDir := cfg.puppeteerUserDataDir }

/-- Embedding of the navigated-URL computation (the value `page.goto`
receives), lines 95 and 96 of `cli.js`:
`const url = argv.file ? "file://" + path.join(cwd, argv.file) : argv.url`;
`const symbolsUrl = argv.serve ?
   urlJoin("http://localhost:" + String(port), argv.url or "/") : url`.
`none` models JavaScript `undefined`. -/
def resolveUrl (cfg : RunConfig) (cwd : String) (port : Nat) : Option String :=
  let url :=
    if strTruthy cfg.file then some ("file://" ++ pathJoin cwd (cfg.file.getD ""))
    else cfg.url
  if strTruthy cfg.serve then
    some (urlJoin ("http://localhost:" ++ toString port)
      (if strTruthy cfg.url then cfg.url.getD "" else "/"))
  else url

/-- The viewport mapping the loop iterates, with its default:
`argv.viewports or (Desktop maps to 1024x768)`; an explicitly present empty
mapping is truthy in JavaScript, so it does not trigger the default. -/
def viewportList (cfg : RunConfig) : List (String × String) :=
  match cfg.viewports with
  | some vs => vs
  | none => [("Desktop", "1024x768")]

/-- `path.resolve(process.cwd(), argv.outDir)`, computed in each loop
iteration. -/
def outputPathOf (cwd : String) (cfg : RunConfig) : String :=
  pathResolve cwd cfg.outDir

/-- `path.join(outputPath, "page-" + viewport + ".asketch.json")`: the
output file path is keyed off the raw viewport spec string, not the
viewport name. -/
def outputPagePathOf (cwd : String) (cfg : RunConfig) (spec : String) : String :=
  pathJoin (outputPathOf cwd cfg) ("page-" ++ spec ++ ".asketch.json")

/-- The errors the handler can propagate to its top-level catch. -/
inductive RunError
  | serverStart
  | browserLaunch
  | newPage
  | navigation
  | injection
  | setViewportErr (name : String)
  | evaluateErr (name : String)
  | mkdirErr (name : String)
  | writeErr (i : Nat)
deriving DecidableEq, Repr

/-- Trace events: each event records one externally visible operation that
COMPLETED (an operation that fails emits no event; the failure is carried
in the error component instead). -/
inductive Ev
  | getPortEv (port : Nat)
  | serverStart (dir : String) (port : Nat)
  | browserLaunch (la : LaunchArgs)
  | newPage
  | bringToFront
  | goto (url : Option String) (waitUntil : String)
  | inject
  | setViewport (i : Nat) (name : String) (vp : Viewport)
  | extract (i : Nat) (name : String)
  | mkdir (i : Nat) (dir : String)
  | writeIssued (i : Nat) (pth : String) (content : String)
  | awaitWrites
  | browserClose
  | serverClose
  | printError (e : RunError)
deriving DecidableEq, Repr

/-- The environment of one run: the working directory, the port `get-port`
hands out, which external operations fail, and what the in-page extraction
returns at each loop iteration. -/
structure Env where
  cwd : String
  port : Nat
  serverStartFails : Bool
  launchFails : Bool
  newPageFails : Bool
  gotoFails : Bool
  injectFails : Bool
  setViewportFails : Nat → Bool
  evalFails : Nat → Bool
  evalResult : Nat → String
  mkdirFails : Nat → Bool
  writeFails : Nat → Bool

/-- Puppeteer `page.setViewport` accepts the record only when width,
height and deviceScaleFactor are actual numbers (undefined or NaN is a
protocol error at call time). -/
def viewportValid : Viewport → Bool
  | ⟨some (.val _), some (.val _), .val _⟩ => true
  | _ => false

/-- Result of the capture loop: its trace, the files it wrote (in issue
order), the error that aborted it (if any), and the index of the first
write whose promise was rejected (surfaced later at `Promise.all`). -/
structure LoopOut where
  evs : List Ev
  fs : List (String × String)
  err : Option RunError
  firstWriteFail : Option Nat
deriving Repr

/-- Embedding of the `for (const viewportName in viewports)` capture loop,
lines 130 to 149: parse the spec, set the viewport, evaluate the extraction
script, ensure the output directory, issue (without awaiting) the file
write.  A resize, evaluation or mkdir failure aborts the loop; a write
failure is only observed at the final `Promise.all`. -/
def runLoop (env : Env) (cfg : RunConfig) : Nat → List (String × String) → LoopOut
  | _, [] => ⟨[], [], none, none⟩
  | i, (name, spec) :: rest =>
    let vp := parseViewport spec.data
    if env.setViewportFails i || !viewportValid vp then
      ⟨[], [], some (.setViewportErr name), none⟩
    else if env.evalFails i then
      ⟨[.setViewport i name vp], [], some (.evaluateErr name), none⟩
    else if env.mkdirFails i then
      ⟨[.setViewport i name vp, .extract i name], [], some (.mkdirErr name), none⟩
    else
      let doc := env.evalResult i
      let outPath := outputPathOf env.cwd cfg
      let pagePath := outputPagePathOf env.cwd cfg spec
      let blk : List Ev :=
        [.setViewport i name vp, .extract i name, .mkdir i outPath,
         .writeIssued i pagePath doc]
      let r := runLoop env cfg (i + 1) rest
      if env.writeFails i then
        ⟨blk ++ r.evs, r.fs, r.err, some i⟩
      else
        ⟨blk ++ r.evs, (pagePath, doc) :: r.fs, r.err, r.firstWriteFail⟩

/-- Outcome of a stage: trace, files written, propagated error. -/
structure Out where
  evs : List Ev
  fs : List (String × String)
  err : Option RunError
deriving Repr

/-- Embedding of the innermost try body, lines 109 to 151: open the page,
optionally bring it to front (debug), navigate (puppeteer rejects an
undefined URL), inject the extraction bundle, run the capture loop, await
all issued writes. -/
def pageStage (env : Env) (cfg : RunConfig) : Out :=
  if env.newPageFails then ⟨[], [], some .newPage⟩
  else
    let evs0 := Ev.newPage :: (if cfg.debug then [Ev.bringToFront] else [])
    let u := resolveUrl cfg env.cwd env.port
    if env.gotoFails || u.isNone then ⟨evs0, [], some .navigation⟩
    else
      let evs1 := evs0 ++ [Ev.goto u cfg.puppeteerWaitUntil]
      if env.injectFails then ⟨evs1, [], some .injection⟩
      else
        let lo := runLoop env cfg 0 (viewportList cfg)
        match lo.err with
        | some e => ⟨evs1 ++ Ev.inject :: lo.evs, lo.fs, some e⟩
        | none =>
          match lo.firstWriteFail with
          | some i => ⟨evs1 ++ Ev.inject :: lo.evs, lo.fs, some (.writeErr i)⟩
          | none => ⟨evs1 ++ Ev.inject :: (lo.evs ++ [Ev.awaitWrites]), lo.fs, none⟩

/-- Embedding of the middle try/finally, lines 106 to 156: launch the
browser, run the page stage, and in the finally close the browser unless
debug mode is active. -/
def browserStage (env : Env) (cfg : RunConfig) : Out :=
  if env.launchFails then ⟨[], [], some .browserLaunch⟩
  else
    let ps := pageStage env cfg
    let closeEvs := if cfg.debug then [] else [Ev.browserClose]
    ⟨Ev.browserLaunch (mkLaunchArgs cfg) :: (ps.evs ++ closeEvs), ps.fs, ps.err⟩

/-- Embedding of the outer try/finally, lines 91 to 161: when `serve` is
configured, get a port and start the static server, and in the finally
close the server; otherwise run with no server. -/
def serverStage (env : Env) (cfg : RunConfig) : Out :=
  if strTruthy cfg.serve then
    if env.serverStartFails then ⟨[Ev.getPortEv env.port], [], some .serverStart⟩
    else
      let bs := browserStage env cfg
      ⟨Ev.getPortEv env.port :: Ev.serverStart (cfg.serve.getD "") env.port ::
        (bs.evs ++ [Ev.serverClose]), bs.fs, bs.err⟩
  else browserStage env cfg

/-- Final observable outcome of one invocation of the default command. -/
structure RunResult where
  trace : List Ev
  exitCode : Nat
  fs : List (String × String)
deriving Repr

/-- Embedding of the whole default command handler including the top-level
catch, lines 89 to 165: on any propagated error print it and exit with
code 1; otherwise the process terminates normally with code 0. -/
def runDefault (cfg : RunConfig) (env : Env) : RunResult :=
  let s := serverStage env cfg
  match s.err with
  | none => ⟨s.evs, 0, s.fs⟩
  | some e => ⟨s.evs ++ [Ev.printError e], 1, s.fs⟩

/-- Content of the file at path `p` after all writes in `fs` (issue order)
have settled: the last write to `p` wins. -/
def fsLookup (fs : List (String × String)) (p : String) : Option String :=
  match fs with
  | [] => none
  | (q, c) :: rest =>
    match fsLookup rest p with
    | some c2 => some c2
    | none => if q == p then some c else none

/-- Which nesting level of the handler emits an event: 0 for the capture
loop, 1 for the page stage, 2 for browser launch and close, 3 for the
server stage and the top-level catch. -/
def stageOf : Ev → Nat
  | .getPortEv _ => 3
  | .serverStart _ _ => 3
  | .serverClose => 3
  | .printError _ => 3
  | .browserLaunch _ => 2
  | .browserClose => 2
  | .setViewport _ _ _ => 0
  | .extract _ _ => 0
  | .mkdir _ _ => 0
  | .writeIssued _ _ _ => 0
  | _ => 1

/-- Loop iteration index of a capture-loop event (0 for other events). -/
def evIdx : Ev → Nat
  | .setViewport i _ _ => i
  | .extract i _ => i
  | .mkdir i _ => i
  | .writeIssued i _ _ => i
  | _ => 0

/-- The debug-only events emitted right after `newPage`. -/
def debugEvs (cfg : RunConfig) : List Ev :=
  if cfg.debug then [Ev.bringToFront] else []

/-- The browser-teardown events of the middle finally block. -/
def closeEvs (cfg : RunConfig) : List Ev :=
  if cfg.debug then [] else [Ev.browserClose]

/-- The navigation event of a run that reaches `page.goto`. -/
def gotoEv (env : Env) (cfg : RunConfig) : Ev :=
  Ev.goto (resolveUrl cfg env.cwd env.port) cfg.puppeteerWaitUntil

/-- The capture loop of a run, started at index 0 on the configured
viewport list. -/
def loopOut (env : Env) (cfg : RunConfig) : LoopOut :=
  runLoop env cfg 0 (viewportList cfg)

/-- A concrete environment in which every external operation succeeds and
extraction returns a distinct document per iteration. -/
def envOk : Env :=
  { cwd := "/w", port := 3000, serverStartFails := false, launchFails := false,
    newPageFails := false, gotoFails := false, injectFails := false,
    setViewportFails := fun _ => false, evalFails := fun _ => false,
    evalResult := fun i => "doc" ++ toString i,
    mkdirFails := fun _ => false, writeFails := fun _ => false }

/-- The all-success environment with a fault injected into navigation. -/
def envGotoFail : Env :=
  { envOk with gotoFails := true }

/-- A concrete baseline configuration: direct absolute URL, one viewport. -/
def cfgBase : RunConfig :=
  { serve := none, url := some "http://example.com/", file := none, outDir := "out",
    viewports := some [("Desktop", "1024x768")], debug := false,
    puppeteerArgs := none, puppeteerExecutablePath := none,
    puppeteerUserDataDir := none, puppeteerWaitUntil := "networkidle2" }

/-- Baseline with a served directory and a root-relative URL. -/
def cfgServe : RunConfig :=
  { cfgBase with serve := some "dist", url := some "/" }

/-- Served run in debug mode. -/
def cfgServeDebug : RunConfig :=
  { cfgServe with debug := true }

/-- Both a file path and a served directory configured at once. -/
def cfgBoth : RunConfig :=
  { cfgBase with serve := some "dist", file := some "index.html", url := none }

/-- None of url, serve, and file supplied. -/
def cfgNoTarget : RunConfig :=
  { cfgBase with url := none }

/-- Two viewports with different names but the same spec string. -/
def cfgCollide : RunConfig :=
  { cfgBase with viewports := some [("A", "100x100"), ("B", "100x100")] }

/-- A viewport whose width component is not numeric. -/
def cfgBadVp : RunConfig :=
  { cfgBase with viewports := some [("D", "ax5")] }

/-- An explicitly present but empty viewport mapping. -/
def cfgEmptyVp : RunConfig :=
  { cfgBase with viewports := some [] }

theorem runLoop_stage (env : Env) (cfg : RunConfig) :
    ∀ (vps : List (String × String)) (i : Nat), ∀ e ∈ (runLoop env cfg i vps).evs,
      stageOf e = 0 ∧ i ≤ evIdx e := by
  intro vps
  induction vps with
  | nil => intro i e he; simp [runLoop] at he
  | cons p rest ih =>
    obtain ⟨name, spec⟩ := p
    intro i e he
    simp only [runLoop] at he
    split_ifs at he with h1 h2 h3 h4
    · simp at he
    · simp at he; subst he; exact ⟨rfl, Nat.le_refl _⟩
    · simp at he
      rcases he with rfl | rfl
      · exact ⟨rfl, Nat.le_refl _⟩
      · exact ⟨rfl, Nat.le_refl _⟩
    · simp at he
      rcases he with rfl | rfl | rfl | rfl | he
      · exact ⟨rfl, Nat.le_refl _⟩
      · exact ⟨rfl, Nat.le_refl _⟩
      · exact ⟨rfl, Nat.le_refl _⟩
      · exact ⟨rfl, Nat.le_refl _⟩
      · obtain ⟨h0, hidx⟩ := ih (i + 1) e he
        exact ⟨h0, Nat.le_of_succ_le hidx⟩
    · simp at he
      rcases he with rfl | rfl | rfl | rfl | he
      · exact ⟨rfl, Nat.le_refl _⟩
      · exact ⟨rfl, Nat.le_refl _⟩
      · exact ⟨rfl, Nat.le_refl _⟩
      · exact ⟨rfl, Nat.le_refl _⟩
      · obtain ⟨h0, hidx⟩ := ih (i + 1) e he
        exact ⟨h0, Nat.le_of_succ_le hidx⟩

theorem mem_debugEvs {e : Ev} {cfg : RunConfig} (h : e ∈ debugEvs cfg) :
    e = Ev.bringToFront := by
  unfold debugEvs at h
  split_ifs at h <;> simp_all

theorem runLoop_seq (env : Env) (cfg : RunConfig) :
    ∀ (vps : List (String × String)) (i : Nat) (e1 e2 : Ev),
      e1 ∈ (runLoop env cfg i vps).evs → e2 ∈ (runLoop env cfg i vps).evs →
      evIdx e1 < evIdx e2 → List.Sublist [e1, e2] (runLoop env cfg i vps).evs := by
  intro vps
  induction vps with
  | nil => intro i e1 e2 h1 h2 hlt; simp [runLoop] at h1
  | cons p rest ih =>
    obtain ⟨name, spec⟩ := p
    intro i e1 e2 h1 h2 hlt
    simp only [runLoop] at h1 h2 ⊢
    split_ifs at h1 h2 ⊢ with c1 c2 c3 c4
    · simp at h1
    · simp at h1 h2; subst h1; subst h2; simp [evIdx] at hlt
    · simp at h1 h2
      have e1i : evIdx e1 = i := by rcases h1 with rfl | rfl <;> rfl
      have e2i : evIdx e2 = i := by rcases h2 with rfl | rfl <;> rfl
      omega
    · simp only [List.mem_append, List.mem_cons, List.not_mem_nil, or_false] at h1 h2
      rcases h1 with h1 | h1
      · rcases h2 with h2 | h2
        · have e1i : evIdx e1 = i := by
            rcases h1 with rfl | rfl | rfl | rfl <;> rfl
          have e2i : evIdx e2 = i := by
            rcases h2 with rfl | rfl | rfl | rfl <;> rfl
          omega
        · have s1 : List.Sublist [e1] [Ev.setViewport i name (parseViewport spec.data),
              Ev.extract i name, Ev.mkdir i (outputPathOf env.cwd cfg),
              Ev.writeIssued i (outputPagePathOf env.cwd cfg spec) (env.evalResult i)] := by
            rw [List.singleton_sublist]
            simpa using h1
          have s2 : List.Sublist [e2] (runLoop env cfg (i + 1) rest).evs := by
            rw [List.singleton_sublist]; exact h2
          exact s1.append s2
      · rcases h2 with h2 | h2
        · have e2i : evIdx e2 = i := by
            rcases h2 with rfl | rfl | rfl | rfl <;> rfl
          have := (runLoop_stage env cfg rest (i + 1) e1 h1).2
          omega
        · exact (ih (i + 1) e1 e2 h1 h2 hlt).trans
            (List.sublist_append_right _ _)
    · simp only [List.mem_append, List.mem_cons, List.not_mem_nil, or_false] at h1 h2
      rcases h1 with h1 | h1
      · rcases h2 with h2 | h2
        · have e1i : evIdx e1 = i := by
            rcases h1 with rfl | rfl | rfl | rfl <;> rfl
          have e2i : evIdx e2 = i := by
            rcases h2 with rfl | rfl | rfl | rfl <;> rfl
          omega
        · have s1 : List.Sublist [e1] [Ev.setViewport i name (parseViewport spec.data),
              Ev.extract i name, Ev.mkdir i (outputPathOf env.cwd cfg),
              Ev.writeIssued i (outputPagePathOf env.cwd cfg spec) (env.evalResult i)] := by
            rw [List.singleton_sublist]
            simpa using h1
          have s2 : List.Sublist [e2] (runLoop env cfg (i + 1) rest).evs := by
            rw [List.singleton_sublist]; exact h2
          exact s1.append s2
      · rcases h2 with h2 | h2
        · have e2i : evIdx e2 = i := by
            rcases h2 with rfl | rfl | rfl | rfl <;> rfl
          have := (runLoop_stage env cfg rest (i + 1) e1 h1).2
          omega
        · exact (ih (i + 1) e1 e2 h1 h2 hlt).trans
            (List.sublist_append_right _ _)

theorem runLoop_extract_block (env : Env) (cfg : RunConfig) :
    ∀ (vps : List (String × String)) (i j : Nat) (n : String),
      Ev.extract j n ∈ (runLoop env cfg i vps).evs →
      ∃ vp, List.Sublist [Ev.setViewport j n vp, Ev.extract j n] (runLoop env cfg i vps).evs := by
  intro vps
  induction vps with
  | nil => intro i j n h; simp [runLoop] at h
  | cons p rest ih =>
    obtain ⟨name, spec⟩ := p
    intro i j n h
    simp only [runLoop] at h ⊢
    split_ifs at h ⊢ with c1 c2 c3 c4
    · simp at h
    · simp at h
    · simp at h
      obtain ⟨rfl, rfl⟩ := h
      exact ⟨parseViewport spec.data, List.Sublist.refl _⟩
    · simp only [List.mem_append, List.mem_cons, List.not_mem_nil, or_false] at h
      rcases h with h | h
      · rcases h with h | h | h | h <;> first
          | (obtain ⟨rfl, rfl⟩ := (by simpa using h : j = i ∧ n = name)
             refine ⟨parseViewport spec.data, List.Sublist.trans ?_
               (List.sublist_append_left _ _)⟩
             exact .cons₂ _ (.cons₂ _ (List.nil_sublist _)))
          | simp at h
      · obtain ⟨vp, hsub⟩ := ih (i + 1) j n h
        exact ⟨vp, hsub.trans (List.sublist_append_right _ _)⟩
    · simp only [List.mem_append, List.mem_cons, List.not_mem_nil, or_false] at h
      rcases h with h | h
      · rcases h with h | h | h | h <;> first
          | (obtain ⟨rfl, rfl⟩ := (by simpa using h : j = i ∧ n = name)
             refine ⟨parseViewport spec.data, List.Sublist.trans ?_
               (List.sublist_append_left _ _)⟩
             exact .cons₂ _ (.cons₂ _ (List.nil_sublist _)))
          | simp at h
      · obtain ⟨vp, hsub⟩ := ih (i + 1) j n h
        exact ⟨vp, hsub.trans (List.sublist_append_right _ _)⟩

theorem runLoop_write_block (env : Env) (cfg : RunConfig) :
    ∀ (vps : List (String × String)) (i j : Nat) (p c : String),
      Ev.writeIssued j p c ∈ (runLoop env cfg i vps).evs →
      ∃ n vp, List.Sublist [Ev.setViewport j n vp, Ev.extract j n, Ev.writeIssued j p c]
        (runLoop env cfg i vps).evs := by
  intro vps
  induction vps with
  | nil => intro i j p c h; simp [runLoop] at h
  | cons q rest ih =>
    obtain ⟨name, spec⟩ := q
    intro i j p c h
    simp only [runLoop] at h ⊢
    split_ifs at h ⊢ with c1 c2 c3 c4
    · simp at h
    · simp at h
    · simp at h
    · simp only [List.mem_append, List.mem_cons, List.not_mem_nil, or_false] at h
      rcases h with h | h
      · rcases h with h | h | h | h <;> first
          | (obtain ⟨rfl, rfl, rfl⟩ :=
               (by simpa using h : j = i ∧ p = outputPagePathOf env.cwd cfg spec ∧
                 c = env.evalResult i)
             refine ⟨name, parseViewport spec.data, List.Sublist.trans ?_
               (List.sublist_append_left _ _)⟩
             exact .cons₂ _ (.cons₂ _ (.cons _ (.cons₂ _ (List.nil_sublist _)))))
          | simp at h
      · obtain ⟨n, vp, hsub⟩ := ih (i + 1) j p c h
        exact ⟨n, vp, hsub.trans (List.sublist_append_right _ _)⟩
    · simp only [List.mem_append, List.mem_cons, List.not_mem_nil, or_false] at h
      rcases h with h | h
      · rcases h with h | h | h | h <;> first
          | (obtain ⟨rfl, rfl, rfl⟩ :=
               (by simpa using h : j = i ∧ p = outputPagePathOf env.cwd cfg spec ∧
                 c = env.evalResult i)
             refine ⟨name, parseViewport spec.data, List.Sublist.trans ?_
               (List.sublist_append_left _ _)⟩
             exact .cons₂ _ (.cons₂ _ (.cons _ (.cons₂ _ (List.nil_sublist _)))))
          | simp at h
      · obtain ⟨n, vp, hsub⟩ := ih (i + 1) j p c h
        exact ⟨n, vp, hsub.trans (List.sublist_append_right _ _)⟩

theorem runLoop_write_path (env : Env) (cfg : RunConfig) :
    ∀ (vps : List (String × String)) (i j : Nat) (p c : String),
      Ev.writeIssued j p c ∈ (runLoop env cfg i vps).evs →
      ∃ k nm sp, vps[k]? = some (nm, sp) ∧ j = i + k ∧
        p = outputPagePathOf env.cwd cfg sp ∧ c = env.evalResult j := by
  intro vps
  induction vps with
  | nil => intro i j p c h; simp [runLoop] at h
  | cons q rest ih =>
    obtain ⟨name, spec⟩ := q
    intro i j p c h
    simp only [runLoop] at h
    split_ifs at h with c1 c2 c3 c4
    · simp at h
    · simp at h
    · simp at h
    · simp only [List.mem_append, List.mem_cons, List.not_mem_nil, or_false] at h
      rcases h with h | h
      · rcases h with h | h | h | h <;> first
          | (obtain ⟨rfl, rfl, rfl⟩ :=
               (by simpa using h : j = i ∧ p = outputPagePathOf env.cwd cfg spec ∧
                 c = env.evalResult i)
             exact ⟨0, name, spec, by simp, by omega, rfl, rfl⟩)
          | simp at h
      · obtain ⟨k, nm, sp, hk, hj, hp, hc⟩ := ih (i + 1) j p c h
        exact ⟨k + 1, nm, sp, by simpa using hk, by omega, hp, hc⟩
    · simp only [List.mem_append, List.mem_cons, List.not_mem_nil, or_false] at h
      rcases h with h | h
      · rcases h with h | h | h | h <;> first
          | (obtain ⟨rfl, rfl, rfl⟩ :=
               (by simpa using h : j = i ∧ p = outputPagePathOf env.cwd cfg spec ∧
                 c = env.evalResult i)
             exact ⟨0, name, spec, by simp, by omega, rfl, rfl⟩)
          | simp at h
      · obtain ⟨k, nm, sp, hk, hj, hp, hc⟩ := ih (i + 1) j p c h
        exact ⟨k + 1, nm, sp, by simpa using hk, by omega, hp, hc⟩

theorem runLoop_write_fs (env : Env) (cfg : RunConfig) :
    ∀ (vps : List (String × String)) (i j : Nat) (p c : String),
      Ev.writeIssued j p c ∈ (runLoop env cfg i vps).evs →
      env.writeFails j = false → (p, c) ∈ (runLoop env cfg i vps).fs := by
  intro vps
  induction vps with
  | nil => intro i j p c h hw; simp [runLoop] at h
  | cons q rest ih =>
    obtain ⟨name, spec⟩ := q
    intro i j p c h hw
    simp only [runLoop] at h ⊢
    split_ifs at h ⊢ with c1 c2 c3 c4
    · simp at h
    · simp at h
    · simp at h
    · simp only [List.mem_append, List.mem_cons, List.not_mem_nil, or_false] at h
      rcases h with h | h
      · rcases h with h | h | h | h <;> first
          | (obtain ⟨rfl, rfl, rfl⟩ :=
               (by simpa using h : j = i ∧ p = outputPagePathOf env.cwd cfg spec ∧
                 c = env.evalResult i)
             exact absurd hw (by simp [c4]))
          | simp at h
      · exact ih (i + 1) j p c h hw
    · simp only [List.mem_append, List.mem_cons, List.not_mem_nil, or_false] at h
      rcases h with h | h
      · rcases h with h | h | h | h <;> first
          | (obtain ⟨rfl, rfl, rfl⟩ :=
               (by simpa using h : j = i ∧ p = outputPagePathOf env.cwd cfg spec ∧
                 c = env.evalResult i)
             exact List.mem_cons_self _ _)
          | simp at h
      · exact List.mem_cons_of_mem _ (ih (i + 1) j p c h hw)

theorem pageStage_shape (env : Env) (cfg : RunConfig) :
    pageStage env cfg = ⟨[], [], some .newPage⟩ ∨
    pageStage env cfg = ⟨Ev.newPage :: debugEvs cfg, [], some .navigation⟩ ∨
    pageStage env cfg =
      ⟨Ev.newPage :: debugEvs cfg ++ [gotoEv env cfg], [], some .injection⟩ ∨
    (∃ er, (loopOut env cfg).err = some er ∧
      pageStage env cfg =
        ⟨Ev.newPage :: debugEvs cfg ++ [gotoEv env cfg] ++ Ev.inject :: (loopOut env cfg).evs,
         (loopOut env cfg).fs, some er⟩) ∨
    (∃ i, (loopOut env cfg).err = none ∧ (loopOut env cfg).firstWriteFail = some i ∧
      pageStage env cfg =
        ⟨Ev.newPage :: debugEvs cfg ++ [gotoEv env cfg] ++ Ev.inject :: (loopOut env cfg).evs,
         (loopOut env cfg).fs, some (.writeErr i)⟩) ∨
    ((loopOut env cfg).err = none ∧ (loopOut env cfg).firstWriteFail = none ∧
      pageStage env cfg =
        ⟨Ev.newPage :: debugEvs cfg ++ [gotoEv env cfg] ++
           Ev.inject :: ((loopOut env cfg).evs ++ [Ev.awaitWrites]),
         (loopOut env cfg).fs, none⟩) := by
  by_cases h1 : env.newPageFails = true
  · exact Or.inl (by simp [pageStage, h1])
  by_cases h2 : (env.gotoFails || (resolveUrl cfg env.cwd env.port).isNone) = true
  · refine Or.inr (Or.inl ?_)
    simp [pageStage, h1, h2, debugEvs]
  by_cases h3 : env.injectFails = true
  · refine Or.inr (Or.inr (Or.inl ?_))
    simp [pageStage, h1, h2, h3, debugEvs, gotoEv]
  rcases herr : (runLoop env cfg 0 (viewportList cfg)).err with _ | er
  · rcases hfw : (runLoop env cfg 0 (viewportList cfg)).firstWriteFail with _ | i
    · refine Or.inr (Or.inr (Or.inr (Or.inr (Or.inr ⟨?_, ?_, ?_⟩))))
      · exact herr
      · exact hfw
      · simp [pageStage, h1, h2, h3, herr, hfw, loopOut, debugEvs, gotoEv]
    · refine Or.inr (Or.inr (Or.inr (Or.inr (Or.inl ⟨i, ?_, ?_, ?_⟩))))
      · exact herr
      · exact hfw
      · simp [pageStage, h1, h2, h3, herr, hfw, loopOut, debugEvs, gotoEv]
  · refine Or.inr (Or.inr (Or.inr (Or.inl ⟨er, ?_, ?_⟩)))
    · exact herr
    · simp [pageStage, h1, h2, h3, herr, loopOut, debugEvs, gotoEv]

theorem browserStage_shape (env : Env) (cfg : RunConfig) :
    browserStage env cfg = ⟨[], [], some .browserLaunch⟩ ∨
    browserStage env cfg =
      ⟨Ev.browserLaunch (mkLaunchArgs cfg) :: ((pageStage env cfg).evs ++ closeEvs cfg),
       (pageStage env cfg).fs, (pageStage env cfg).err⟩ := by
  by_cases h1 : env.launchFails = true
  · exact Or.inl (by simp [browserStage, h1])
  · exact Or.inr (by simp [browserStage, h1, closeEvs])

theorem serverStage_shape (env : Env) (cfg : RunConfig) :
    (strTruthy cfg.serve = false ∧ serverStage env cfg = browserStage env cfg) ∨
    (strTruthy cfg.serve = true ∧ env.serverStartFails = true ∧
      serverStage env cfg = ⟨[Ev.getPortEv env.port], [], some .serverStart⟩) ∨
    (strTruthy cfg.serve = true ∧ env.serverStartFails = false ∧
      serverStage env cfg =
        ⟨Ev.getPortEv env.port :: Ev.serverStart (cfg.serve.getD "") env.port ::
           ((browserStage env cfg).evs ++ [Ev.serverClose]),
         (browserStage env cfg).fs, (browserStage env cfg).err⟩) := by
  by_cases h1 : strTruthy cfg.serve = true
  · by_cases h2 : env.serverStartFails = true
    · exact Or.inr (Or.inl ⟨h1, h2, by simp [serverStage, h1, h2]⟩)
    · exact Or.inr (Or.inr ⟨h1, by simpa using h2, by simp [serverStage, h1, h2]⟩)
  · exact Or.inl ⟨by simpa using h1, by simp [serverStage, h1]⟩

theorem runDefault_shape (cfg : RunConfig) (env : Env) :
    ((serverStage env cfg).err = none ∧
      runDefault cfg env = ⟨(serverStage env cfg).evs, 0, (serverStage env cfg).fs⟩) ∨
    (∃ e, (serverStage env cfg).err = some e ∧
      runDefault cfg env =
        ⟨(serverStage env cfg).evs ++ [Ev.printError e], 1, (serverStage env cfg).fs⟩) := by
  rcases herr : (serverStage env cfg).err with _ | e
  · exact Or.inl ⟨rfl, by simp [runDefault, herr]⟩
  · exact Or.inr ⟨e, rfl, by simp [runDefault, herr]⟩

theorem mem_closeEvs {e : Ev} {cfg : RunConfig} (h : e ∈ closeEvs cfg) :
    e = Ev.browserClose := by
  unfold closeEvs at h
  split_ifs at h <;> simp_all

theorem pageStage_stage (env : Env) (cfg : RunConfig) :
    ∀ e ∈ (pageStage env cfg).evs, stageOf e ≤ 1 := by
  intro e he
  rcases pageStage_shape env cfg with h | h | h | ⟨er, _, h⟩ | ⟨i, _, _, h⟩ | ⟨_, _, h⟩ <;>
    rw [h] at he <;>
    simp only [List.mem_append, List.mem_cons, List.mem_singleton,
      List.not_mem_nil, or_false, false_or, or_assoc] at he
  · rcases he with rfl | he
    · exact Nat.le_refl _
    · rw [mem_debugEvs he]; exact Nat.le_refl _
  · rcases he with rfl | he | rfl
    · exact Nat.le_refl _
    · rw [mem_debugEvs he]; exact Nat.le_refl _
    · unfold gotoEv; exact Nat.le_refl _
  · rcases he with rfl | he | rfl | rfl | he
    · exact Nat.le_refl _
    · rw [mem_debugEvs he]; exact Nat.le_refl _
    · unfold gotoEv; exact Nat.le_refl _
    · exact Nat.le_refl _
    · have := (runLoop_stage env cfg _ 0 e he).1; omega
  · rcases he with rfl | he | rfl | rfl | he
    · exact Nat.le_refl _
    · rw [mem_debugEvs he]; exact Nat.le_refl _
    · unfold gotoEv; exact Nat.le_refl _
    · exact Nat.le_refl _
    · have := (runLoop_stage env cfg _ 0 e he).1; omega
  · rcases he with rfl | he | rfl | rfl | he | rfl
    · exact Nat.le_refl _
    · rw [mem_debugEvs he]; exact Nat.le_refl _
    · unfold gotoEv; exact Nat.le_refl _
    · exact Nat.le_refl _
    · have := (runLoop_stage env cfg _ 0 e he).1; omega
    · exact Nat.le_refl _

theorem browserStage_stage (env : Env) (cfg : RunConfig) :
    ∀ e ∈ (browserStage env cfg).evs, stageOf e ≤ 2 := by
  intro e he
  rcases browserStage_shape env cfg with h | h <;> rw [h] at he
  · simp at he
  · simp only [List.mem_cons, List.mem_append] at he
    rcases he with rfl | he | he
    · exact Nat.le_refl _
    · exact Nat.le_trans (pageStage_stage env cfg e he) (by omega)
    · rw [mem_closeEvs he]; exact Nat.le_refl _

theorem printError_not_mem_serverStage (env : Env) (cfg : RunConfig) (er : RunError) :
    Ev.printError er ∉ (serverStage env cfg).evs := by
  intro he
  rcases serverStage_shape env cfg with ⟨_, h⟩ | ⟨_, _, h⟩ | ⟨_, _, h⟩ <;> rw [h] at he
  · exact absurd (browserStage_stage env cfg _ he) (by simp [stageOf])
  · simp at he
  · simp only [List.mem_cons, List.mem_append, List.mem_singleton,
      List.not_mem_nil, or_false, or_assoc] at he
    rcases he with he | he | he | he <;>
      first
      | simp at he
      | exact absurd (browserStage_stage env cfg _ he) (by simp [stageOf])

theorem low_mem_serverStage {env : Env} {cfg : RunConfig} {e : Ev}
    (he : e ∈ (serverStage env cfg).evs) (hs : stageOf e ≤ 2) :
    e ∈ (browserStage env cfg).evs := by
  rcases serverStage_shape env cfg with ⟨_, h⟩ | ⟨_, _, h⟩ | ⟨_, _, h⟩ <;> rw [h] at he
  · exact he
  · simp at he; subst he; simp [stageOf] at hs
  · simp only [List.mem_cons, List.mem_append, List.mem_singleton,
      List.not_mem_nil, or_false, or_assoc] at he
    rcases he with rfl | rfl | he | rfl <;>
      first
      | exact he
      | simp [stageOf] at hs

theorem low_mem_trace {cfg : RunConfig} {env : Env} {e : Ev}
    (he : e ∈ (runDefault cfg env).trace) (hs : stageOf e ≤ 2) :
    e ∈ (browserStage env cfg).evs := by
  rcases runDefault_shape cfg env with ⟨_, h⟩ | ⟨er, _, h⟩ <;> rw [h] at he
  · exact low_mem_serverStage he hs
  · simp only [List.mem_append, List.mem_singleton] at he
    rcases he with he | rfl
    · exact low_mem_serverStage he hs
    · simp [stageOf] at hs

theorem low_mem_pageStage {env : Env} {cfg : RunConfig} {e : Ev}
    (he : e ∈ (browserStage env cfg).evs) (hs : stageOf e ≤ 1) :
    e ∈ (pageStage env cfg).evs := by
  rcases browserStage_shape env cfg with h | h <;> rw [h] at he
  · simp at he
  · simp only [List.mem_cons, List.mem_append] at he
    rcases he with rfl | he | he
    · simp [stageOf] at hs
    · exact he
    · rw [mem_closeEvs he] at hs; simp [stageOf] at hs

theorem loop_mem_pageStage {env : Env} {cfg : RunConfig} {e : Ev}
    (he : e ∈ (pageStage env cfg).evs) (hs : stageOf e = 0) :
    e ∈ (loopOut env cfg).evs := by
  rcases pageStage_shape env cfg with h | h | h | ⟨er, _, h⟩ | ⟨i, _, _, h⟩ | ⟨_, _, h⟩ <;>
    rw [h] at he <;>
    simp only [List.mem_append, List.mem_cons, List.mem_singleton,
      List.not_mem_nil, or_false, false_or, or_assoc] at he
  · rcases he with rfl | he
    · simp [stageOf] at hs
    · rw [mem_debugEvs he] at hs; simp [stageOf] at hs
  · rcases he with rfl | he | rfl
    · simp [stageOf] at hs
    · rw [mem_debugEvs he] at hs; simp [stageOf] at hs
    · unfold gotoEv at hs; simp [stageOf] at hs
  · rcases he with rfl | he | rfl | rfl | he
    · simp [stageOf] at hs
    · rw [mem_debugEvs he] at hs; simp [stageOf] at hs
    · unfold gotoEv at hs; simp [stageOf] at hs
    · simp [stageOf] at hs
    · exact he
  · rcases he with rfl | he | rfl | rfl | he
    · simp [stageOf] at hs
    · rw [mem_debugEvs he] at hs; simp [stageOf] at hs
    · unfold gotoEv at hs; simp [stageOf] at hs
    · simp [stageOf] at hs
    · exact he
  · rcases he with rfl | he | rfl | rfl | he | rfl
    · simp [stageOf] at hs
    · rw [mem_debugEvs he] at hs; simp [stageOf] at hs
    · unfold gotoEv at hs; simp [stageOf] at hs
    · simp [stageOf] at hs
    · exact he
    · simp [stageOf] at hs

theorem loop_mem_trace {cfg : RunConfig} {env : Env} {e : Ev}
    (he : e ∈ (runDefault cfg env).trace) (hs : stageOf e = 0) :
    e ∈ (loopOut env cfg).evs :=
  loop_mem_pageStage
    (low_mem_pageStage (low_mem_trace he (by omega)) (by omega)) hs

theorem mem_trace_cases {cfg : RunConfig} {env : Env} {e : Ev}
    (he : e ∈ (runDefault cfg env).trace) :
    e ∈ (serverStage env cfg).evs ∨ ∃ er, e = Ev.printError er := by
  rcases runDefault_shape cfg env with ⟨_, hr⟩ | ⟨er, _, hr⟩ <;> rw [hr] at he
  · exact Or.inl he
  · simp only [List.mem_append, List.mem_singleton] at he
    rcases he with he | rfl
    · exact Or.inl he
    · exact Or.inr ⟨er, rfl⟩

theorem sublist_browserStage_trace {cfg : RunConfig} {env : Env} {l : List Ev}
    (h : List.Sublist l (browserStage env cfg).evs)
    {e0 : Ev} (he0 : e0 ∈ (runDefault cfg env).trace) (hs : stageOf e0 ≤ 2) :
    List.Sublist l (runDefault cfg env).trace := by
  have hlift : List.Sublist l (serverStage env cfg).evs := by
    rcases serverStage_shape env cfg with ⟨_, hq⟩ | ⟨_, _, hq⟩ | ⟨_, _, hq⟩ <;> rw [hq]
    · exact h
    · rcases mem_trace_cases he0 with hm | ⟨er, rfl⟩
      · rw [hq] at hm; simp at hm; subst hm; simp [stageOf] at hs
      · simp [stageOf] at hs
    · exact .cons _ (.cons _ ((h.trans (List.sublist_append_left _ _))))
  rcases runDefault_shape cfg env with ⟨_, hr⟩ | ⟨er, _, hr⟩ <;> rw [hr]
  · exact hlift
  · exact hlift.trans (List.sublist_append_left _ _)

theorem sublist_pageStage_trace {cfg : RunConfig} {env : Env} {l : List Ev}
    (h : List.Sublist l (pageStage env cfg).evs)
    {e0 : Ev} (he0 : e0 ∈ (runDefault cfg env).trace) (hs : stageOf e0 ≤ 1) :
    List.Sublist l (runDefault cfg env).trace := by
  have hbs := low_mem_trace he0 (by omega)
  rcases browserStage_shape env cfg with hq | hq
  · rw [hq] at hbs; simp at hbs
  · refine sublist_browserStage_trace ?_ he0 (by omega)
    rw [hq]
    exact .cons _ (h.trans (List.sublist_append_left _ _))

theorem loop_sublist_pageStage {cfg : RunConfig} {env : Env} {l : List Ev}
    (h : List.Sublist l (loopOut env cfg).evs)
    {e0 : Ev} (he0 : e0 ∈ (pageStage env cfg).evs) (hs : stageOf e0 = 0) :
    List.Sublist (Ev.inject :: l) (pageStage env cfg).evs := by
  rcases pageStage_shape env cfg with hq | hq | hq | ⟨er, _, hq⟩ | ⟨i, _, _, hq⟩ |
      ⟨_, _, hq⟩ <;> rw [hq] at he0 ⊢
  · simp at he0
  · simp only [List.mem_cons] at he0
    rcases he0 with rfl | hm
    · simp [stageOf] at hs
    · rw [mem_debugEvs hm] at hs; simp [stageOf] at hs
  · simp only [List.mem_cons, List.mem_append, List.mem_singleton,
      List.not_mem_nil, or_false, or_assoc] at he0
    rcases he0 with rfl | hm | rfl
    · simp [stageOf] at hs
    · rw [mem_debugEvs hm] at hs; simp [stageOf] at hs
    · unfold gotoEv at hs; simp [stageOf] at hs
  · exact ((List.Sublist.cons₂ _ h).trans
      (List.sublist_append_right _ _)).cons _
  · exact ((List.Sublist.cons₂ _ h).trans
      (List.sublist_append_right _ _)).cons _
  · exact ((List.Sublist.cons₂ _ (h.trans (List.sublist_append_left _ _))).trans
      (List.sublist_append_right _ _)).cons _

theorem inject_loop_sublist_trace {cfg : RunConfig} {env : Env} {l : List Ev}
    (h : List.Sublist l (loopOut env cfg).evs)
    {e0 : Ev} (he0 : e0 ∈ (runDefault cfg env).trace) (hs : stageOf e0 = 0) :
    List.Sublist (Ev.inject :: l) (runDefault cfg env).trace := by
  have heps := low_mem_pageStage (low_mem_trace he0 (by omega)) (by omega)
  exact sublist_pageStage_trace (loop_sublist_pageStage h heps hs) he0 (by omega)

theorem loop_sublist_trace {cfg : RunConfig} {env : Env} {l : List Ev}
    (h : List.Sublist l (loopOut env cfg).evs)
    {e0 : Ev} (he0 : e0 ∈ (runDefault cfg env).trace) (hs : stageOf e0 = 0) :
    List.Sublist l (runDefault cfg env).trace :=
  (List.sublist_cons_self Ev.inject l).trans (inject_loop_sublist_trace h he0 hs)

theorem sublist_serverStage_trace {cfg : RunConfig} {env : Env} {l : List Ev}
    (h : List.Sublist l (serverStage env cfg).evs) :
    List.Sublist l (runDefault cfg env).trace := by
  rcases runDefault_shape cfg env with ⟨_, hr⟩ | ⟨er, _, hr⟩ <;> rw [hr]
  · exact h
  · exact h.trans (List.sublist_append_left _ _)

theorem mem_browserStage_trace {cfg : RunConfig} {env : Env} {e e0 : Ev}
    (he : e ∈ (browserStage env cfg).evs)
    (he0 : e0 ∈ (runDefault cfg env).trace) (hs0 : stageOf e0 ≤ 2) :
    e ∈ (runDefault cfg env).trace :=
  List.singleton_sublist.mp
    (sublist_browserStage_trace (List.singleton_sublist.mpr he) he0 hs0)

theorem browserLaunch_mem {cfg : RunConfig} {env : Env} {la : LaunchArgs}
    (h : Ev.browserLaunch la ∈ (runDefault cfg env).trace) :
    la = mkLaunchArgs cfg := by
  have hb := low_mem_trace h (by simp [stageOf])
  rcases browserStage_shape env cfg with hq | hq <;> rw [hq] at hb
  · simp at hb
  · simp only [List.mem_cons, List.mem_append] at hb
    rcases hb with hb | hb | hb
    · exact Ev.browserLaunch.inj hb
    · exact absurd (pageStage_stage env cfg _ hb) (by simp [stageOf])
    · exact absurd (mem_closeEvs hb) (by simp)

theorem mem_debugEvs_iff {e : Ev} {cfg : RunConfig} :
    e ∈ debugEvs cfg ↔ cfg.debug = true ∧ e = Ev.bringToFront := by
  unfold debugEvs
  split_ifs with h <;> simp_all

theorem mem_closeEvs_iff {e : Ev} {cfg : RunConfig} :
    e ∈ closeEvs cfg ↔ cfg.debug = false ∧ e = Ev.browserClose := by
  unfold closeEvs
  split_ifs with h <;> simp_all

attribute [simp] mem_debugEvs_iff mem_closeEvs_iff

theorem loopOut_stage (env : Env) (cfg : RunConfig) :
    ∀ e ∈ (loopOut env cfg).evs, stageOf e = 0 := fun e he =>
  (runLoop_stage env cfg (viewportList cfg) 0 e he).1

theorem awaitWrites_shape {cfg : RunConfig} {env : Env}
    (ha : Ev.awaitWrites ∈ (pageStage env cfg).evs) :
    (pageStage env cfg).evs =
      Ev.newPage :: debugEvs cfg ++ [gotoEv env cfg] ++
        Ev.inject :: ((loopOut env cfg).evs ++ [Ev.awaitWrites]) := by
  rcases pageStage_shape env cfg with hq | hq | hq | ⟨er, _, hq⟩ | ⟨i, _, _, hq⟩ |
      ⟨_, _, hq⟩ <;> rw [hq] at ha ⊢
  · simp at ha
  · simp at ha
  · simp [gotoEv] at ha
  · simp [gotoEv] at ha
    exact absurd (loopOut_stage env cfg _ ha) (by simp [stageOf])
  · simp [gotoEv] at ha
    exact absurd (loopOut_stage env cfg _ ha) (by simp [stageOf])

theorem write_before_awaitWrites {cfg : RunConfig} {env : Env} {i : Nat}
    {p c : String}
    (hw : Ev.writeIssued i p c ∈ (runDefault cfg env).trace)
    (ha : Ev.awaitWrites ∈ (runDefault cfg env).trace) :
    List.Sublist [Ev.writeIssued i p c, Ev.awaitWrites]
      (runDefault cfg env).trace := by
  have haps := low_mem_pageStage (low_mem_trace ha (by simp [stageOf]))
    (by simp [stageOf])
  have hwl : Ev.writeIssued i p c ∈ (loopOut env cfg).evs :=
    loop_mem_trace hw rfl
  refine sublist_pageStage_trace ?_ ha (by simp [stageOf])
  rw [awaitWrites_shape haps]
  have h1 : List.Sublist [Ev.writeIssued i p c, Ev.awaitWrites]
      ((loopOut env cfg).evs ++ [Ev.awaitWrites]) :=
    (List.singleton_sublist.mpr hwl).append (List.Sublist.refl _)
  exact ((h1.cons _).trans (List.sublist_append_right _ _)).cons _

theorem runDefault_fs (cfg : RunConfig) (env : Env) :
    (runDefault cfg env).fs = (serverStage env cfg).fs := by
  rcases runDefault_shape cfg env with ⟨_, hr⟩ | ⟨er, _, hr⟩ <;> rw [hr]

theorem fs_eq_loop_fs {cfg : RunConfig} {env : Env} {e0 : Ev}
    (he0 : e0 ∈ (runDefault cfg env).trace) (hs : stageOf e0 = 0) :
    (runDefault cfg env).fs = (loopOut env cfg).fs := by
  have hbs := low_mem_trace he0 (by omega)
  have hps := low_mem_pageStage hbs (by omega)
  have hl := loop_mem_pageStage hps hs
  rw [runDefault_fs]
  have hbfs : (browserStage env cfg).fs = (pageStage env cfg).fs := by
    rcases browserStage_shape env cfg with hq | hq <;> rw [hq]
    · rw [hq] at hbs; simp at hbs
  have hpfs : (pageStage env cfg).fs = (loopOut env cfg).fs := by
    rcases pageStage_shape env cfg with hq | hq | hq | ⟨er, _, hq⟩ | ⟨i, _, _, hq⟩ |
        ⟨_, _, hq⟩ <;> rw [hq]
    · rw [hq] at hps; simp at hps
    · rw [hq] at hps
      simp only [List.mem_cons] at hps
      rcases hps with rfl | hm
      · simp [stageOf] at hs
      · rw [mem_debugEvs hm] at hs; simp [stageOf] at hs
    · rw [hq] at hps
      simp only [List.mem_cons, List.mem_append, List.mem_singleton,
        List.not_mem_nil, or_false, or_assoc] at hps
      rcases hps with rfl | hm | rfl
      · simp [stageOf] at hs
      · rw [mem_debugEvs hm] at hs; simp [stageOf] at hs
      · unfold gotoEv at hs; simp [stageOf] at hs
  rcases serverStage_shape env cfg with ⟨_, hq⟩ | ⟨_, _, hq⟩ | ⟨_, _, hq⟩ <;> rw [hq]
  · rw [hbfs, hpfs]
  · rcases mem_trace_cases he0 with hm | ⟨er, rfl⟩
    · rw [hq] at hm; simp at hm; subst hm; simp [stageOf] at hs
    · simp [stageOf] at hs
  · rw [hbfs, hpfs]

theorem viewportValid_width_nan {vp : Viewport} (h : vp.width = some .nan) :
    viewportValid vp = false := by
  obtain ⟨w, hh, d⟩ := vp
  simp only at h
  subst h
  rcases hh with _ | q <;> rcases d with _ | q2 <;>
    first
    | rfl
    | (rename_i j; rcases j with _ | q3 <;> rfl)

theorem splitOnChar_not_mem {sep : Char} :
    ∀ {l : List Char}, sep ∉ l → splitOnChar sep l = [l]
  | [], _ => rfl
  | c :: cs, h => by
    have hc : ¬(c = sep) := fun hcs => h (hcs ▸ List.mem_cons_self c cs)
    have ht : sep ∉ cs := fun hm => h (List.mem_cons_of_mem c hm)
    simp only [splitOnChar, if_neg hc, splitOnChar_not_mem ht]

theorem splitOnChar_append {sep : Char} :
    ∀ {pre : List Char} (rest : List Char), sep ∉ pre →
      splitOnChar sep (pre ++ sep :: rest) = pre :: splitOnChar sep rest
  | [], rest, _ => by simp [splitOnChar]
  | c :: cs, rest, h => by
    have hc : ¬(c = sep) := fun hcs => h (hcs ▸ List.mem_cons_self c cs)
    have ht : sep ∉ cs := fun hm => h (List.mem_cons_of_mem c hm)
    simp only [List.cons_append, splitOnChar, List.append_eq, if_neg hc,
      splitOnChar_append rest ht]

theorem digits_not_mem {l : List Char} (hd : ∀ c ∈ l, c.isDigit = true)
    {x : Char} (hx : x.isDigit = false) : x ∉ l := fun hm => by
  rw [hd x hm] at hx; exact absurd hx (by decide)

theorem parseIntJS_digits {l : List Char} (hne : l ≠ [])
    (hd : ∀ c ∈ l, c.isDigit = true) :
    parseIntJS l = .val (natOfDigits l) := by
  unfold parseIntJS
  rw [List.takeWhile_eq_self_iff.mpr hd]
  simp [hne]

theorem parseFloatJS_digits {l : List Char} (hne : l ≠ [])
    (hd : ∀ c ∈ l, c.isDigit = true) :
    parseFloatJS l = .val (natOfDigits l) := by
  unfold parseFloatJS
  rw [List.takeWhile_eq_self_iff.mpr hd]
  simp only [List.drop_length]
  rcases hl : l.length with _ | n
  · exact absurd (List.length_eq_zero.mp hl) hne
  · simp [hne]

/-- C2 (amended): the navigated URL is resolved with the serve branch
first: when serving is active it is the join of the local origin with the
configured url (default `/`), even if a file path is also configured; only
when serving is inactive does a configured file path produce the
`file://` URL of the working directory joined with that path; with neither
serve nor file, the configured url is used verbatim. -/
theorem C2_url_resolution (cfg : RunConfig) (cwd : String) (port : Nat) :
    (strTruthy cfg.serve = true →
      resolveUrl cfg cwd port =
        some (urlJoin ("http://localhost:" ++ toString port)
          (if strTruthy cfg.url then cfg.url.getD "" else "/"))) ∧
    (strTruthy cfg.serve = false → strTruthy cfg.file = true →
      resolveUrl cfg cwd port =
        some ("file://" ++ pathJoin cwd (cfg.file.getD ""))) ∧
    (strTruthy cfg.serve = false → strTruthy cfg.file = false →
      resolveUrl cfg cwd port = cfg.url) :=
  ⟨fun hs => by simp [resolveUrl, hs],
   fun hs hf => by simp [resolveUrl, hs, hf],
   fun hs hf => by simp [resolveUrl, hs, hf]⟩

/-- C2 counterexample: with both a file path and serve configured, the
resolved URL is the served origin, not the file URL the claim requires. -/
theorem C2_counterexample :
    resolveUrl cfgBoth "/w" 3000 = some "http://localhost:3000/" ∧
    some ("file://" ++ pathJoin "/w" (cfgBoth.file.getD "")) =
      some "file:///w/index.html" ∧
    resolveUrl cfgBoth "/w" 3000 ≠
      some ("file://" ++ pathJoin "/w" (cfgBoth.file.getD "")) :=
  ⟨by decide, by decide, by decide⟩

/-- C2 witness: the serve branch of the amended resolver theorem evaluated
at the file-plus-serve configuration. -/
theorem C2_witness :
    resolveUrl cfgBoth "/w" 3000 =
      some (urlJoin ("http://localhost:" ++ toString 3000)
        (if strTruthy cfgBoth.url then cfgBoth.url.getD "" else "/")) :=
  (C2_url_resolution cfgBoth "/w" 3000).1 (by decide)

/-- C3: every issued output write targets
`<outDir>/page-<viewportSpecString>.asketch.json`, keyed off the spec
string of the viewport at that loop index (never its name), and carries
the document extracted at that iteration; concretely, two differently named
viewports with the same spec string write the same path and the final file
content is the document of the later viewport. -/
theorem C3_output_keyed_by_spec (cfg : RunConfig) (env : Env) :
    (∀ i p c, Ev.writeIssued i p c ∈ (runDefault cfg env).trace →
      ∃ nm sp, (viewportList cfg)[i]? = some (nm, sp) ∧
        p = outputPagePathOf env.cwd cfg sp ∧ c = env.evalResult i) ∧
    (runDefault cfgCollide envOk).fs.map Prod.fst =
      ["/w/out/page-100x100.asketch.json", "/w/out/page-100x100.asketch.json"] ∧
    fsLookup (runDefault cfgCollide envOk).fs
      "/w/out/page-100x100.asketch.json" = some "doc1" := by
  refine ⟨?_, by decide, by decide⟩
  intro i p c hW
  have hl : Ev.writeIssued i p c ∈ (runLoop env cfg 0 (viewportList cfg)).evs :=
    loop_mem_trace hW rfl
  obtain ⟨k, nm, sp, hk, hj, hp, hc⟩ :=
    runLoop_write_path env cfg (viewportList cfg) 0 i p c hl
  have hki : k = i := by omega
  subst hki
  exact ⟨nm, sp, hk, hp, hc⟩

/-- C3 witness: the general output-path theorem applied to the second
write of the colliding-viewports run. -/
theorem C3_witness :
    ∃ nm sp, (viewportList cfgCollide)[1]? = some (nm, sp) ∧
      "/w/out/page-100x100.asketch.json" = outputPagePathOf envOk.cwd cfgCollide sp ∧
      "doc1" = envOk.evalResult 1 :=
  (C3_output_keyed_by_spec cfgCollide envOk).1 1
    "/w/out/page-100x100.asketch.json" "doc1" (by decide)

/-- C5 (amended): a spec string `WxH` with numeric W and H parses to
width W, height H and device scale factor 1, and `WxH@S` with numeric S
parses to scale S; but a spec whose W is non-numeric is NOT rejected as a
configuration error: parsing yields NaN and the run fails at runtime while
applying the viewport, after the browser has been launched. -/
theorem C5_viewport_spec_parsing (w h s : List Char)
    (hwne : w ≠ []) (hhne : h ≠ []) (hsne : s ≠ [])
    (hwd : ∀ c ∈ w, c.isDigit = true) (hhd : ∀ c ∈ h, c.isDigit = true)
    (hsd : ∀ c ∈ s, c.isDigit = true) :
    parseViewport (w ++ 'x' :: h) =
      ⟨some (.val (natOfDigits w)), some (.val (natOfDigits h)), .val 1⟩ ∧
    parseViewport (w ++ 'x' :: h ++ '@' :: s) =
      ⟨some (.val (natOfDigits w)), some (.val (natOfDigits h)),
        .val (natOfDigits s)⟩ ∧
    (runDefault cfgBadVp envOk).exitCode = 1 ∧
    Ev.browserLaunch (mkLaunchArgs cfgBadVp) ∈
      (runDefault cfgBadVp envOk).trace ∧
    Ev.printError (.setViewportErr "D") ∈ (runDefault cfgBadVp envOk).trace := by
  have hxw : 'x' ∉ w := digits_not_mem hwd (by decide)
  have hxh : 'x' ∉ h := digits_not_mem hhd (by decide)
  have haw : '@' ∉ w := digits_not_mem hwd (by decide)
  have hah : '@' ∉ h := digits_not_mem hhd (by decide)
  have has2 : '@' ∉ s := digits_not_mem hsd (by decide)
  have hawf : '@' ∉ w ++ 'x' :: h := by
    intro hc
    rcases List.mem_append.mp hc with hc | hc
    · exact haw hc
    rcases List.mem_cons.mp hc with hc | hc
    · exact absurd hc (by decide)
    · exact hah hc
  refine ⟨?_, ?_, by decide, by decide, by decide⟩
  · simp [parseViewport, splitOnChar_not_mem hawf, splitOnChar_append h hxw,
      splitOnChar_not_mem hxh, parseIntJS_digits hwne hwd,
      parseIntJS_digits hhne hhd]
  · have hsplit : splitOnChar '@' (w ++ 'x' :: (h ++ '@' :: s)) =
        (w ++ 'x' :: h) :: [s] := by
      have h2 := @splitOnChar_append '@' (w ++ 'x' :: h) s hawf
      rw [splitOnChar_not_mem has2] at h2
      simpa using h2
    simp [parseViewport, hsplit, splitOnChar_append h hxw,
      splitOnChar_not_mem hxh, parseIntJS_digits hwne hwd,
      parseIntJS_digits hhne hhd, parseFloatJS_digits hsne hsd]

/-- C5 counterexample: a spec with non-numeric width parses to NaN instead
of being an error, and the run still launches the browser and only then
fails, at runtime, while applying the viewport: the failure is not a
configuration-time one. -/
theorem C5_counterexample :
    (parseViewport "ax5".data).width = some .nan ∧
    Ev.browserLaunch (mkLaunchArgs cfgBadVp) ∈
      (runDefault cfgBadVp envOk).trace ∧
    (runDefault cfgBadVp envOk).exitCode = 1 ∧
    Ev.printError (.setViewportErr "D") ∈ (runDefault cfgBadVp envOk).trace :=
  ⟨by decide, by decide, by decide, by decide⟩

/-- C5 witness: the parsing clauses evaluated at `1024x768` and
`1024x768@2`. -/
theorem C5_witness :
    parseViewport ("1024".data ++ 'x' :: "768".data) =
      ⟨some (.val (natOfDigits "1024".data)),
        some (.val (natOfDigits "768".data)), .val 1⟩ ∧
    parseViewport ("1024".data ++ 'x' :: "768".data ++ '@' :: "2".data) =
      ⟨some (.val (natOfDigits "1024".data)),
        some (.val (natOfDigits "768".data)), .val (natOfDigits "2".data)⟩ :=
  ⟨(C5_viewport_spec_parsing "1024".data "768".data "2".data (by decide)
      (by decide) (by decide) (by decide) (by decide) (by decide)).1,
   (C5_viewport_spec_parsing "1024".data "768".data "2".data (by decide)
      (by decide) (by decide) (by decide) (by decide) (by decide)).2.1⟩

/-- C9: a viewport spec ending in a bare `at` sign with no scale digits
parses to deviceScaleFactor NaN, because the default of 1 applies only
when the separator is entirely absent. -/
theorem C9_bare_at_scale_nan (t : List Char) (h : '@' ∉ t) :
    (parseViewport (t ++ ['@'])).deviceScaleFactor = .nan ∧
    (parseViewport t).deviceScaleFactor = .val 1 := by
  constructor
  · have : t ++ ['@'] = t ++ '@' :: [] := rfl
    rw [this]
    simp [parseViewport, splitOnChar_append [] h, splitOnChar, parseFloatJS]
  · simp [parseViewport, splitOnChar_not_mem h]

/-- C9 witness: the bare-at theorem evaluated at `1024x768@`. -/
theorem C9_witness :
    (parseViewport ("1024x768".data ++ ['@'])).deviceScaleFactor =
      JSNumber.nan :=
  (C9_bare_at_scale_nan "1024x768".data (by decide)).1

/-- C1 (amended): whenever the static server was started, it is closed on
every exit path and before any failure is reported; when debug is not set,
a launched browser is closed, the browser close precedes the server close
(strict reverse acquisition order), and both precede the failure report.
The browser teardown is deliberately skipped when debug is set. -/
theorem C1_resource_teardown (cfg : RunConfig) (env : Env) :
    (∀ d p, Ev.serverStart d p ∈ (runDefault cfg env).trace →
      Ev.serverClose ∈ (runDefault cfg env).trace ∧
      ∀ er, Ev.printError er ∈ (runDefault cfg env).trace →
        List.Sublist [Ev.serverClose, Ev.printError er]
          (runDefault cfg env).trace) ∧
    (cfg.debug = false →
      ∀ la, Ev.browserLaunch la ∈ (runDefault cfg env).trace →
        Ev.browserClose ∈ (runDefault cfg env).trace ∧
        (Ev.serverClose ∈ (runDefault cfg env).trace →
          List.Sublist [Ev.browserClose, Ev.serverClose]
            (runDefault cfg env).trace) ∧
        ∀ er, Ev.printError er ∈ (runDefault cfg env).trace →
          List.Sublist [Ev.browserClose, Ev.printError er]
            (runDefault cfg env).trace) := by
  constructor
  · intro d p hss
    rcases mem_trace_cases hss with hss2 | ⟨er, heq⟩
    swap
    · simp at heq
    rcases serverStage_shape env cfg with ⟨_, hq⟩ | ⟨_, _, hq⟩ | ⟨_, _, hq⟩
    · rw [hq] at hss2
      exact absurd (browserStage_stage env cfg _ hss2) (by simp [stageOf])
    · rw [hq] at hss2; simp at hss2
    have hscs : Ev.serverClose ∈ (serverStage env cfg).evs := by
      rw [hq]; simp
    constructor
    · exact List.singleton_sublist.mp
        (sublist_serverStage_trace (List.singleton_sublist.mpr hscs))
    · intro er hpe
      rcases runDefault_shape cfg env with ⟨_, hr⟩ | ⟨er0, _, hr⟩
      · rw [hr] at hpe
        exact absurd hpe (printError_not_mem_serverStage env cfg er)
      · rw [hr] at hpe ⊢
        simp only [List.mem_append, List.mem_singleton] at hpe
        rcases hpe with hpe | hpe
        · exact absurd hpe (printError_not_mem_serverStage env cfg er)
        · obtain rfl : er = er0 := by simpa using hpe
          exact (List.singleton_sublist.mpr hscs).append (List.Sublist.refl _)
  · intro hdbg la hbl
    have hbsm : Ev.browserLaunch la ∈ (browserStage env cfg).evs :=
      low_mem_trace hbl (by simp [stageOf])
    rcases browserStage_shape env cfg with hq | hq
    · rw [hq] at hbsm; simp at hbsm
    have hbc : Ev.browserClose ∈ (browserStage env cfg).evs := by
      rw [hq]; simp [hdbg]
    refine ⟨mem_browserStage_trace hbc hbl (by simp [stageOf]), ?_, ?_⟩
    · intro hsc
      rcases mem_trace_cases hsc with hsc2 | ⟨er, heq⟩
      swap
      · simp at heq
      rcases serverStage_shape env cfg with ⟨_, hq2⟩ | ⟨_, _, hq2⟩ | ⟨_, _, hq2⟩
      · rw [hq2] at hsc2
        exact absurd (browserStage_stage env cfg _ hsc2) (by simp [stageOf])
      · rw [hq2] at hsc2; simp at hsc2
      · apply sublist_serverStage_trace
        rw [hq2]
        refine List.Sublist.cons _ (List.Sublist.cons _ ?_)
        exact (List.singleton_sublist.mpr hbc).append (List.Sublist.refl _)
    · intro er hpe
      rcases runDefault_shape cfg env with ⟨_, hr⟩ | ⟨er0, _, hr⟩
      · rw [hr] at hpe
        exact absurd hpe (printError_not_mem_serverStage env cfg er)
      · have hbct : Ev.browserClose ∈ (runDefault cfg env).trace :=
          mem_browserStage_trace hbc hbl (by simp [stageOf])
        rw [hr] at hpe hbct ⊢
        simp only [List.mem_append, List.mem_singleton] at hpe hbct
        rcases hpe with hpe | hpe
        · exact absurd hpe (printError_not_mem_serverStage env cfg er)
        obtain rfl : er = er0 := by simpa using hpe
        rcases hbct with hbct | hbct
        · exact (List.singleton_sublist.mpr hbct).append (List.Sublist.refl _)
        · simp at hbct

/-- C1 counterexample: in a debug run with serve configured and a failing
navigation, the browser session is acquired, the run fails, and yet the
browser is never released, refuting release of every acquired resource on
every exit path. -/
theorem C1_counterexample :
    Ev.browserLaunch (mkLaunchArgs cfgServeDebug) ∈
      (runDefault cfgServeDebug envGotoFail).trace ∧
    (runDefault cfgServeDebug envGotoFail).exitCode = 1 ∧
    Ev.browserClose ∉ (runDefault cfgServeDebug envGotoFail).trace :=
  ⟨by decide, by decide, by decide⟩

/-- C1 witness: in a non-debug served run with failing navigation, the
server is closed before the failure is reported and the browser is closed
before the server. -/
theorem C1_witness :
    Ev.serverClose ∈ (runDefault cfgServe envGotoFail).trace ∧
    List.Sublist [Ev.serverClose, Ev.printError .navigation]
      (runDefault cfgServe envGotoFail).trace ∧
    List.Sublist [Ev.browserClose, Ev.serverClose]
      (runDefault cfgServe envGotoFail).trace := by
  have h1 := (C1_resource_teardown cfgServe envGotoFail).1 "dist" 3000 (by decide)
  have h2 := (C1_resource_teardown cfgServe envGotoFail).2 rfl
    (mkLaunchArgs cfgServe) (by decide)
  exact ⟨h1.1, h1.2 .navigation (by decide), h2.2.1 h1.1⟩

/-- C4: the pipeline event order is as specified: the server (if started)
is ready before navigation; injection completes before every extraction;
each extraction is preceded by its own viewport resize; extraction at a
lower index completes before any resize at a higher index (viewports are
strictly sequential); each write is issued after its own capture; and the
single await of write completions follows every issued write. -/
theorem C4_event_ordering (cfg : RunConfig) (env : Env) :
    (∀ d p u wu, Ev.serverStart d p ∈ (runDefault cfg env).trace →
      Ev.goto u wu ∈ (runDefault cfg env).trace →
      List.Sublist [Ev.serverStart d p, Ev.goto u wu]
        (runDefault cfg env).trace) ∧
    (∀ i n, Ev.extract i n ∈ (runDefault cfg env).trace →
      List.Sublist [Ev.inject, Ev.extract i n] (runDefault cfg env).trace) ∧
    (∀ i n, Ev.extract i n ∈ (runDefault cfg env).trace →
      ∃ vp, List.Sublist [Ev.setViewport i n vp, Ev.extract i n]
        (runDefault cfg env).trace) ∧
    (∀ i n j m vp, i < j → Ev.extract i n ∈ (runDefault cfg env).trace →
      Ev.setViewport j m vp ∈ (runDefault cfg env).trace →
      List.Sublist [Ev.extract i n, Ev.setViewport j m vp]
        (runDefault cfg env).trace) ∧
    (∀ i p c, Ev.writeIssued i p c ∈ (runDefault cfg env).trace →
      ∃ n vp, List.Sublist [Ev.setViewport i n vp, Ev.extract i n,
        Ev.writeIssued i p c] (runDefault cfg env).trace) ∧
    (∀ i p c, Ev.writeIssued i p c ∈ (runDefault cfg env).trace →
      Ev.awaitWrites ∈ (runDefault cfg env).trace →
      List.Sublist [Ev.writeIssued i p c, Ev.awaitWrites]
        (runDefault cfg env).trace) := by
  refine ⟨?_, ?_, ?_, ?_, ?_, ?_⟩
  · intro d p u wu hss hgo
    rcases mem_trace_cases hss with hss2 | ⟨er, heq⟩
    swap
    · simp at heq
    rcases mem_trace_cases hgo with hgo2 | ⟨er, heq⟩
    swap
    · simp at heq
    rcases serverStage_shape env cfg with ⟨_, hq⟩ | ⟨_, _, hq⟩ | ⟨_, _, hq⟩
    · rw [hq] at hss2
      exact absurd (browserStage_stage env cfg _ hss2) (by simp [stageOf])
    · rw [hq] at hss2; simp at hss2
    · rw [hq] at hss2 hgo2
      simp only [List.mem_cons, List.mem_append, List.mem_singleton,
        List.not_mem_nil, or_false, or_assoc] at hss2 hgo2
      rcases hss2 with hss2 | hss2 | hss2 | hss2
      · simp at hss2
      swap
      · exact absurd (browserStage_stage env cfg _ hss2) (by simp [stageOf])
      swap
      · simp at hss2
      obtain ⟨rfl, rfl⟩ : d = cfg.serve.getD "" ∧ p = env.port := by
        simpa using hss2
      rcases hgo2 with hgo2 | hgo2 | hgo2 | hgo2
      · simp at hgo2
      · simp at hgo2
      swap
      · simp at hgo2
      apply sublist_serverStage_trace
      rw [hq]
      refine List.Sublist.cons _ (List.Sublist.cons₂ _ ?_)
      exact List.singleton_sublist.mpr (List.mem_append_left _ hgo2)
  · intro i n h
    exact inject_loop_sublist_trace
      (List.singleton_sublist.mpr (loop_mem_trace h rfl)) h rfl
  · intro i n h
    obtain ⟨vp, hsub⟩ := runLoop_extract_block env cfg (viewportList cfg) 0 i n
      (loop_mem_trace h rfl)
    exact ⟨vp, loop_sublist_trace hsub h rfl⟩
  · intro i n j m vp hij h1 h2
    have hsub := runLoop_seq env cfg (viewportList cfg) 0 _ _
      (loop_mem_trace h1 rfl) (loop_mem_trace h2 rfl)
      (by simpa [evIdx] using hij)
    exact loop_sublist_trace hsub h1 rfl
  · intro i p c h
    obtain ⟨n, vp, hsub⟩ := runLoop_write_block env cfg (viewportList cfg) 0 i p c
      (loop_mem_trace h rfl)
    exact ⟨n, vp, loop_sublist_trace hsub h rfl⟩
  · intro i p c hw ha
    exact write_before_awaitWrites hw ha

/-- C4 witness: the ordering theorem applied to the two-viewport collision
run: injection precedes the first extraction, and the final await follows
the second issued write. -/
theorem C4_witness :
    List.Sublist [Ev.inject, Ev.extract 0 "A"]
      (runDefault cfgCollide envOk).trace ∧
    List.Sublist [Ev.writeIssued 1 "/w/out/page-100x100.asketch.json" "doc1",
      Ev.awaitWrites] (runDefault cfgCollide envOk).trace :=
  ⟨(C4_event_ordering cfgCollide envOk).2.1 0 "A" (by decide),
   (C4_event_ordering cfgCollide envOk).2.2.2.2.2 1
     "/w/out/page-100x100.asketch.json" "doc1" (by decide) (by decide)⟩

/-- C6 (amended): when none of url, serve, and file is supplied, the run
fails with exit code 1 and a navigation error, and no output is written,
but only AFTER the browser has been launched: the failure surfaces at
`page.goto(undefined)`, downstream of `puppeteer.launch`. -/
theorem C6_no_target_fails_after_launch (cfg : RunConfig) (env : Env)
    (hu : cfg.url = none) (hs : cfg.serve = none) (hf : cfg.file = none)
    (hl : env.launchFails = false) (hn : env.newPageFails = false) :
    (runDefault cfg env).exitCode = 1 ∧
    Ev.browserLaunch (mkLaunchArgs cfg) ∈ (runDefault cfg env).trace ∧
    Ev.printError .navigation ∈ (runDefault cfg env).trace ∧
    (runDefault cfg env).fs = [] := by
  have hru : resolveUrl cfg env.cwd env.port = none := by
    simp [resolveUrl, hu, hs, hf, strTruthy]
  have hps : pageStage env cfg =
      ⟨Ev.newPage :: debugEvs cfg, [], some .navigation⟩ := by
    simp [pageStage, hn, hru, debugEvs]
  have hbs : browserStage env cfg =
      ⟨Ev.browserLaunch (mkLaunchArgs cfg) ::
        ((Ev.newPage :: debugEvs cfg) ++ closeEvs cfg), [], some .navigation⟩ := by
    simp [browserStage, hl, hps, closeEvs]
  have hss : serverStage env cfg = browserStage env cfg := by
    simp [serverStage, hs, strTruthy]
  have hrun : runDefault cfg env =
      ⟨(serverStage env cfg).evs ++ [Ev.printError .navigation], 1,
        (serverStage env cfg).fs⟩ := by
    simp [runDefault, hss, hbs]
  rw [hrun, hss, hbs]
  refine ⟨rfl, by simp, by simp, rfl⟩

/-- C6 counterexample: with none of url, serve, and file supplied, the
browser IS launched before the run fails, refuting failure before any
launch attempt. -/
theorem C6_counterexample :
    Ev.browserLaunch (mkLaunchArgs cfgNoTarget) ∈
      (runDefault cfgNoTarget envOk).trace ∧
    (runDefault cfgNoTarget envOk).exitCode = 1 :=
  ⟨by decide, by decide⟩

/-- C6 witness: the amended theorem evaluated at the no-target
configuration in the all-success environment. -/
theorem C6_witness :
    (runDefault cfgNoTarget envOk).exitCode = 1 ∧
    Ev.browserLaunch (mkLaunchArgs cfgNoTarget) ∈
      (runDefault cfgNoTarget envOk).trace ∧
    Ev.printError .navigation ∈ (runDefault cfgNoTarget envOk).trace ∧
    (runDefault cfgNoTarget envOk).fs = [] :=
  C6_no_target_fails_after_launch cfgNoTarget envOk rfl rfl rfl rfl rfl

/-- C7: with debug set, every browser launch is headed (headless false)
and the browser is never closed on any exit path; with debug unset, every
launch is headless and a launched browser is always closed. -/
theorem C7_debug_mode (cfg : RunConfig) (env : Env) :
    (cfg.debug = true →
      (∀ la, Ev.browserLaunch la ∈ (runDefault cfg env).trace →
        la.headless = false) ∧
      Ev.browserClose ∉ (runDefault cfg env).trace) ∧
    (cfg.debug = false →
      (∀ la, Ev.browserLaunch la ∈ (runDefault cfg env).trace →
        la.headless = true) ∧
      (∀ la, Ev.browserLaunch la ∈ (runDefault cfg env).trace →
        Ev.browserClose ∈ (runDefault cfg env).trace)) := by
  constructor
  · intro hd
    constructor
    · intro la h
      rw [browserLaunch_mem h]
      simp [mkLaunchArgs, hd]
    · intro h
      have hbsm := low_mem_trace h (by simp [stageOf])
      rcases browserStage_shape env cfg with hq | hq <;> rw [hq] at hbsm
      · simp at hbsm
      · simp only [List.mem_cons, List.mem_append] at hbsm
        rcases hbsm with hbsm | hbsm | hbsm
        · simp at hbsm
        · exact absurd (pageStage_stage env cfg _ hbsm) (by simp [stageOf])
        · rw [mem_closeEvs_iff] at hbsm
          rw [hbsm.1] at hd
          cases hd
  · intro hd
    constructor
    · intro la h
      rw [browserLaunch_mem h]
      simp [mkLaunchArgs, hd]
    · intro la h
      have hbsm := low_mem_trace h (by simp [stageOf])
      rcases browserStage_shape env cfg with hq | hq
      · rw [hq] at hbsm; simp at hbsm
      · have hbc : Ev.browserClose ∈ (browserStage env cfg).evs := by
          rw [hq]; simp [hd]
        exact mem_browserStage_trace hbc h (by simp [stageOf])

/-- C7 witness: the debug clauses evaluated on a debug run that fails
after launch and on a successful non-debug run. -/
theorem C7_witness :
    Ev.browserClose ∉ (runDefault cfgServeDebug envGotoFail).trace ∧
    (mkLaunchArgs cfgBase).headless = true ∧
    Ev.browserClose ∈ (runDefault cfgBase envOk).trace :=
  ⟨((C7_debug_mode cfgServeDebug envGotoFail).1 rfl).2,
   ((C7_debug_mode cfgBase envOk).2 rfl).1 (mkLaunchArgs cfgBase) (by decide),
   ((C7_debug_mode cfgBase envOk).2 rfl).2 (mkLaunchArgs cfgBase) (by decide)⟩

/-- C8: a run with no propagated error exits 0 and prints no error; a run
with a propagated error exits 1 and prints that error; and every file
whose write was issued and did not itself fail remains in the final file
system, with no rollback on failure. -/
theorem C8_exit_and_persistence (cfg : RunConfig) (env : Env) :
    ((serverStage env cfg).err = none →
      (runDefault cfg env).exitCode = 0 ∧
      ∀ er, Ev.printError er ∉ (runDefault cfg env).trace) ∧
    (∀ er, (serverStage env cfg).err = some er →
      (runDefault cfg env).exitCode = 1 ∧
      Ev.printError er ∈ (runDefault cfg env).trace) ∧
    (∀ i p c, Ev.writeIssued i p c ∈ (runDefault cfg env).trace →
      env.writeFails i = false → (p, c) ∈ (runDefault cfg env).fs) := by
  refine ⟨?_, ?_, ?_⟩
  · intro hn
    rcases runDefault_shape cfg env with ⟨_, hr⟩ | ⟨er0, he, hr⟩
    · rw [hr]
      exact ⟨rfl, fun er => printError_not_mem_serverStage env cfg er⟩
    · rw [hn] at he; cases he
  · intro er hsome
    rcases runDefault_shape cfg env with ⟨hnone, hr⟩ | ⟨er0, he, hr⟩
    · rw [hnone] at hsome; cases hsome
    · rw [he] at hsome
      obtain rfl : er = er0 := by simpa using hsome.symm
      rw [hr]
      exact ⟨rfl, by simp⟩
  · intro i p c hw hwf
    rw [fs_eq_loop_fs hw rfl]
    exact runLoop_write_fs env cfg (viewportList cfg) 0 i p c
      (loop_mem_trace hw rfl) hwf

/-- C8 witness: exit code 0 with no error printed on a successful run,
exit code 1 with the navigation error printed on a failing run, and a
written file persisting in the final state. -/
theorem C8_witness :
    ((runDefault cfgBase envOk).exitCode = 0 ∧
      ∀ er, Ev.printError er ∉ (runDefault cfgBase envOk).trace) ∧
    ((runDefault cfgBase envGotoFail).exitCode = 1 ∧
      Ev.printError .navigation ∈ (runDefault cfgBase envGotoFail).trace) ∧
    ("/w/out/page-1024x768.asketch.json", "doc0") ∈
      (runDefault cfgBase envOk).fs :=
  ⟨(C8_exit_and_persistence cfgBase envOk).1 (by decide),
   (C8_exit_and_persistence cfgBase envGotoFail).2.1 .navigation (by decide),
   (C8_exit_and_persistence cfgBase envOk).2.2 0
     "/w/out/page-1024x768.asketch.json" "doc0" (by decide) rfl⟩

/-- C10: with a present but empty viewport mapping and all stages up to
injection succeeding, the capture loop runs zero iterations: no resize,
extraction, directory creation, or write happens, no file is produced,
and the run exits 0. -/
theorem C10_empty_viewports (cfg : RunConfig) (env : Env)
    (hv : cfg.viewports = some [])
    (hl : env.launchFails = false) (hnp : env.newPageFails = false)
    (hg : env.gotoFails = false) (hi : env.injectFails = false)
    (hsf : env.serverStartFails = false)
    (hu : resolveUrl cfg env.cwd env.port ≠ none) :
    (runDefault cfg env).exitCode = 0 ∧
    (runDefault cfg env).fs = [] ∧
    (∀ i d, Ev.mkdir i d ∉ (runDefault cfg env).trace) ∧
    (∀ i n vp, Ev.setViewport i n vp ∉ (runDefault cfg env).trace) ∧
    (∀ i n, Ev.extract i n ∉ (runDefault cfg env).trace) ∧
    (∀ i p c, Ev.writeIssued i p c ∉ (runDefault cfg env).trace) := by
  have hloop : runLoop env cfg 0 (viewportList cfg) = ⟨[], [], none, none⟩ := by
    simp [viewportList, hv, runLoop]
  have hloopO : loopOut env cfg = ⟨[], [], none, none⟩ := by
    simp [loopOut, hloop]
  obtain ⟨v, hv2⟩ : ∃ v, resolveUrl cfg env.cwd env.port = some v := by
    rcases hru : resolveUrl cfg env.cwd env.port with _ | v
    · exact absurd hru hu
    · exact ⟨v, rfl⟩
  have hps_err : (pageStage env cfg).err = none := by
    simp [pageStage, hnp, hg, hi, hv2, hloop]
  have hps_fs : (pageStage env cfg).fs = [] := by
    simp [pageStage, hnp, hg, hi, hv2, hloop]
  have hbs_err : (browserStage env cfg).err = none := by
    simp [browserStage, hl, hps_err]
  have hbs_fs : (browserStage env cfg).fs = [] := by
    simp [browserStage, hl, hps_fs]
  have hss_err : (serverStage env cfg).err = none := by
    by_cases hserve : strTruthy cfg.serve = true
    · simp [serverStage, hserve, hsf, hbs_err]
    · simp [serverStage, hserve, hbs_err]
  have hss_fs : (serverStage env cfg).fs = [] := by
    by_cases hserve : strTruthy cfg.serve = true
    · simp [serverStage, hserve, hsf, hbs_fs]
    · simp [serverStage, hserve, hbs_fs]
  refine ⟨?_, ?_, ?_, ?_, ?_, ?_⟩
  · simp [runDefault, hss_err]
  · rw [runDefault_fs cfg env, hss_fs]
  · intro i d hm
    have := loop_mem_trace hm rfl
    rw [hloopO] at this
    simp at this
  · intro i n vp hm
    have := loop_mem_trace hm rfl
    rw [hloopO] at this
    simp at this
  · intro i n hm
    have := loop_mem_trace hm rfl
    rw [hloopO] at this
    simp at this
  · intro i p c hm
    have := loop_mem_trace hm rfl
    rw [hloopO] at this
    simp at this

/-- C10 witness: the empty-viewports theorem evaluated in the all-success
environment. -/
theorem C10_witness :
    (runDefault cfgEmptyVp envOk).exitCode = 0 ∧
    (runDefault cfgEmptyVp envOk).fs = [] ∧
    Ev.mkdir 0 "/w/out" ∉ (runDefault cfgEmptyVp envOk).trace := by
  have h := C10_empty_viewports cfgEmptyVp envOk rfl rfl rfl rfl rfl rfl
    (by decide)
  exact ⟨h.1, h.2.1, h.2.2.1 0 "/w/out"⟩

end HtmlSketchappCli
